import Mathlib

/-!
Shallow embedding of grafana's logging core (`pkg/infra/log/log.go`):
severity levels and filter options, go-kit logger values, the
`ConcreteLogger` wrapper, the `logManager` registry (with an explicit heap
so that Go pointer identity is observable), `Close`/`Reload` over the
global lifecycle handler lists, and `ReadLoggingConfig`.

Go mutable state is passed explicitly; Go pointers to `ConcreteLogger`
objects are modelled as indices into a heap list, so "the very same
object" is "the same heap index".  Go maps are modelled as association
lists with unique keys.  The external collaborators (the ini
configuration file, the filesystem, go-kit's `level` package) are
modelled by explicit environment records; go-kit's filter semantics
(`allow`) follows the spec: a record passes iff its level ordinal is at
least the threshold's ordinal.
-/

/-- Go-kit severity levels (debug < info < warn < error).  A
`level.Option` such as `AllowInfo` is modelled as the minimum admitted
level, i.e. also a `Lvl`. -/
inductive Lvl where
  | debug
  | info
  | warn
  | error
deriving DecidableEq, Repr

/-- Ordinal of a level, for filter comparisons. -/
def Lvl.ord : Lvl → Nat
  | .debug => 0
  | .info => 1
  | .warn => 2
  | .error => 3

/-- Modelled from the spec (section 4.1, the go-kit `level` package is an
external dependency, not part of the repository): a record at level
`recLevel` passes a filter with threshold `threshold` iff its ordinal is
at least the threshold's ordinal (`AllowInfo` admits info, warn, error). -/
def allow (recLevel : Lvl) (threshold : Lvl) : Bool :=
  decide (Lvl.ord threshold ≤ Lvl.ord recLevel)

/-- A Go `interface\x7b\x7d` value appearing in a variadic context list:
either a string, some non-string value, or nil (used to pad odd-length
context lists). -/
inductive Arg where
  | str (s : String)
  | other (n : Nat)
  | nil
deriving DecidableEq, Repr

/-- A go-kit logger value: an opaque sink (a writer plus its format,
abstracted to an identifier), a level filter wrapper (`level.NewFilter`),
a context wrapper (`gokitlog.With` with a nonempty context), or a
`compositeLogger` fanning out to a list of loggers. -/
inductive GLogger where
  | sink (id : Nat)
  | filter (inner : GLogger) (threshold : Lvl)
  | withCtx (inner : GLogger) (ctx : List Arg)
  | composite (loggers : List GLogger)

/-- `gokitlog.With`: returns the logger unchanged when the context is
empty, otherwise wraps it. -/
def gWith (l : GLogger) (ctx : List Arg) : GLogger :=
  match ctx with
  | [] => l
  | _ => GLogger.withCtx l ctx

/-- `ConcreteLogger`: fixed context plus the currently installed delegate
logger (`log.go` lines 156-160). -/
structure ConcreteLogger where
  ctx : List Arg
  logger : GLogger

/-- `newConcreteLogger` (`log.go` lines 162-173): with a nonempty context
the delegate is wrapped by `gokitlog.With`. -/
def newConcreteLogger (logger : GLogger) (ctx : List Arg) : ConcreteLogger :=
  match ctx with
  | [] => { ctx := [], logger := logger }
  | _ => { ctx := ctx, logger := GLogger.withCtx logger ctx }

/-- `ConcreteLogger.SetLogger` (`log.go` lines 175-179): installs a new
delegate, re-wrapped with the object's own fixed context; the context and
the object identity are untouched. -/
def ConcreteLogger.SetLogger (cl : ConcreteLogger) (logger : GLogger) : ConcreteLogger :=
  { cl with logger := gWith logger cl.ctx }

/-- `LogWithFilters` (`log.go` lines 250-254): a sink descriptor with its
default threshold and per-logger-name overrides. -/
structure LogWithFilters where
  val : GLogger
  filters : List (String × Lvl)
  maxLevel : Lvl

/-- Events logged through the root logger by the configuration code
(`level.Error(root).Log(...)` call sites). -/
inductive LogEvent where
  | unknownLevel (levelName : String)
  | unknownMode (mode : String)
  | mkdirFailed (mode : String)
  | initFailed (mode : String)
deriving DecidableEq, Repr

/-- `logLevels` (`log.go` lines 275-282): the level-name map.  "trace"
and "debug" both map to `AllowDebug`; "critical" and "error" both map to
`AllowError`. -/
def logLevels : List (String × Lvl) :=
  [("trace", Lvl.debug), ("debug", Lvl.debug), ("info", Lvl.info),
   ("warn", Lvl.warn), ("error", Lvl.error), ("critical", Lvl.error)]

/-- `getLogLevelFromString` (`log.go` lines 291-300): unknown names log
one error through the root logger and resolve to `AllowError`. -/
def getLogLevelFromString (levelName : String) : Lvl × List LogEvent :=
  match logLevels.lookup levelName with
  | none => (Lvl.error, [LogEvent.unknownLevel levelName])
  | some l => (l, [])

/-- The registry (`logManager`, `log.go` lines 50-55).  Go pointers to
`ConcreteLogger` objects are modelled as indices into `heap`; the
embedded `lm.ConcreteLogger` is the object at index `rootCL`;
`loggersByName` maps a logger name to the index of its object. -/
structure logManager where
  heap : List ConcreteLogger
  rootCL : Nat
  loggersByName : List (String × Nat)
  logFilters : List LogWithFilters

/-- Dereference a `ConcreteLogger` pointer. -/
def hGet (s : logManager) (i : Nat) : ConcreteLogger :=
  s.heap.getD i { ctx := [], logger := GLogger.sink 0 }

/-- Write through a `ConcreteLogger` pointer. -/
def hSet (s : logManager) (i : Nat) (cl : ConcreteLogger) : logManager :=
  { s with heap := s.heap.set i cl }

/-- `newManager` (`log.go` lines 57-62). -/
def newManager (logger : GLogger) : logManager :=
  { heap := [newConcreteLogger logger []], rootCL := 0,
    loggersByName := [], logFilters := [] }

/-- The per-name composite built inside `logManager.initialize`
(`log.go` lines 83-91): for each sink descriptor, the override threshold
when the descriptor's filter map contains the name, else the
descriptor's own default threshold. -/
def initCtxLoggers (loggers : List LogWithFilters) (name : String) : List GLogger :=
  loggers.map fun logger =>
    match logger.filters.lookup name with
    | none => GLogger.filter logger.val logger.maxLevel
    | some filterLevel => GLogger.filter logger.val filterLevel

/-- The per-entry update loop at the end of `logManager.initialize`
(`log.go` lines 82-94): each named logger object is updated in place
through its pointer.  (Go iterates the map keys in sorted order; since
map keys are unique and the update of one entry never reads another, the
iteration order does not affect the result.) -/
def updFold (F : String → ConcreteLogger → ConcreteLogger)
    (entries : List (String × Nat)) (s : logManager) : logManager :=
  entries.foldl (fun acc p => hSet acc p.2 (F p.1 (hGet acc p.2))) s

/-- The first half of `logManager.initialize` (`log.go` lines 68-74):
swap the root object's delegate to the new default composite and record
the new descriptor list. -/
def reconfRoot (s : logManager) (loggers : List LogWithFilters) : logManager :=
  let defaultLoggers := loggers.map fun logger => GLogger.filter logger.val logger.maxLevel
  let s1 := hSet s s.rootCL
    (ConcreteLogger.SetLogger (hGet s s.rootCL) (GLogger.composite defaultLoggers))
  { s1 with logFilters := loggers }

/-- `logManager.initialize` (`log.go` lines 64-95), renamed to avoid a
reserved word: swaps the root object's delegate to the new default
composite, records the new descriptor list, then swaps every named
logger object's delegate to its per-name filtered composite. -/
def logManager.reconfigure (s : logManager) (loggers : List LogWithFilters) : logManager :=
  let s2 := reconfRoot s loggers
  updFold
    (fun name cl =>
      ConcreteLogger.SetLogger cl (GLogger.composite (initCtxLoggers loggers name)))
    s2.loggersByName s2

/-- The composite built inside `logManager.New` for an unseen name
(`log.go` lines 139-149): an append loop over the current descriptor
list, using the override threshold when present, else the default. -/
def newCompositeFor (logFilters : List LogWithFilters) (loggerName : String) : List GLogger :=
  logFilters.foldl
    (fun acc logWithFilter =>
      match logWithFilter.filters.lookup loggerName with
      | some filterLevel => acc ++ [GLogger.filter logWithFilter.val filterLevel]
      | none => acc ++ [GLogger.filter logWithFilter.val logWithFilter.maxLevel])
    []

/-- `logManager.New` (`log.go` lines 115-154).  Returns the (possibly
updated) registry and the pointer to the returned `ConcreteLogger`. -/
def logManager.New (s : logManager) (ctx : List Arg) : logManager × Nat :=
  match ctx with
  | [] => (s, s.rootCL)
  | c0 :: _ =>
    match c0 with
    | Arg.str loggerName =>
      match s.loggersByName.lookup loggerName with
      | some id => (s, id)
      | none =>
        let ctx2 := Arg.str "logger" :: ctx
        if s.logFilters.isEmpty then
          let ctxLogger := newConcreteLogger (hGet s s.rootCL).logger ctx2
          ({ s with
              heap := s.heap ++ [ctxLogger],
              loggersByName := s.loggersByName ++ [(loggerName, s.heap.length)] },
           s.heap.length)
        else
          let ctxLogger :=
            newConcreteLogger (GLogger.composite (newCompositeFor s.logFilters loggerName)) ctx2
          ({ s with
              heap := s.heap ++ [ctxLogger],
              loggersByName := s.loggersByName ++ [(loggerName, s.heap.length)] },
           s.heap.length)
    | _ => (s, s.rootCL)

/-- The odd-length padding of `cl.ctx` in `ConcreteLogger.New`
(`log.go` lines 227-229). -/
def padEven (l : List Arg) : List Arg :=
  if l.length % 2 == 1 then l ++ [Arg.nil] else l

/-- The key/value collection loop of `ConcreteLogger.New` (`log.go`
lines 231-239): keeps every pair whose key is not the string "logger". -/
def stripLogger : List Arg → List Arg
  | k :: v :: rest =>
    if k = Arg.str "logger" then stripLogger rest
    else k :: v :: stripLogger rest
  | _ => []

/-- `ConcreteLogger.New` (`log.go` lines 220-244), the `derive`
operation, acting on the receiver at heap index `id`.  With an empty
`ctx` the code calls `root.New()` and discards the result (a no-op);
it then pads the receiver's context to even length in place, collects
the receiver's non-"logger" pairs, appends the new context, and resolves
through the global registry. -/
def ConcreteLogger.New (s : logManager) (id : Nat) (ctx : List Arg) : logManager × Nat :=
  let s0 := if ctx.isEmpty then (logManager.New s []).1 else s
  let cl := hGet s0 id
  let clctx := padEven cl.ctx
  let s1 := hSet s0 id { cl with ctx := clctx }
  let keyvals := stripLogger clctx
  logManager.New s1 (keyvals ++ ctx)

/-- Keys (even positions) of a key/value list. -/
def pairKeys : List Arg → List Arg
  | k :: _ :: rest => k :: pairKeys rest
  | [k] => [k]
  | [] => []

/-- Registry well-formedness: the root pointer and every named pointer
are valid, distinct named loggers are distinct objects, and no named
logger aliases the root object.  All of this holds for the states the
program actually builds (each registration allocates a fresh object). -/
def logManager.WF (s : logManager) : Prop :=
  s.rootCL < s.heap.length ∧
  (∀ p ∈ s.loggersByName, p.2 < s.heap.length) ∧
  (s.loggersByName.map Prod.snd).Nodup ∧
  (∀ p ∈ s.loggersByName, p.2 ≠ s.rootCL) ∧
  (s.loggersByName.map Prod.fst).Nodup

/-- A handler on the `loggersToClose` list, with the outcome its
`Close()` method would return (the handler's behaviour is external to
this core). -/
structure DisposableHandler where
  hid : Nat
  closeErr : Option String
deriving DecidableEq, Repr

/-- A handler on the `loggersToReload` list, with the outcome its
`Reload()` method would return. -/
structure ReloadableHandler where
  hid : Nat
  reloadErr : Option String
deriving DecidableEq, Repr

/-- The package-level lifecycle lists (`log.go` lines 29-30). -/
structure GlobalLogState where
  loggersToClose : List DisposableHandler
  loggersToReload : List ReloadableHandler
deriving DecidableEq, Repr

/-- Result of running `Close()`: the returned error, the handlers whose
`Close()` was invoked (in order), and the new `loggersToClose` list. -/
structure CloseResult where
  err : Option String
  closed : List DisposableHandler
  remaining : List DisposableHandler
deriving DecidableEq, Repr

/-- `Close` (`log.go` lines 364-374): closes every handler on the list,
keeps the first error, then resets the list to empty. -/
def Close (hs : List DisposableHandler) : CloseResult :=
  let r := hs.foldl
    (fun (acc : Option String × List DisposableHandler) logger =>
      ((match logger.closeErr, acc.1 with
        | some e, none => some e
        | _, _ => acc.1),
       acc.2 ++ [logger]))
    (none, [])
  { err := r.1, closed := r.2, remaining := [] }

/-- `Reload` (`log.go` lines 377-385): reloads handlers in order and
returns at the first error.  Also returns the handlers whose `Reload()`
was invoked, in order. -/
def Reload : List ReloadableHandler → Option String × List ReloadableHandler
  | [] => (none, [])
  | logger :: rest =>
    match logger.reloadErr with
    | some e => (some e, [logger])
    | none =>
      let r := Reload rest
      (r.1, logger :: r.2)

/-- The already-parsed ini configuration and OS behaviour consumed by
`ReadLoggingConfig` (the ini file and the filesystem are external
collaborators): raw level strings and filter strings per section,
section existence, and the outcomes of the file handler's directory
creation and initialization and of the handlers' later lifecycle
calls. -/
structure LogCfg where
  rawDefaultLevel : Option String
  rawDefaultFilters : List String
  hasSection : String → Bool
  rawModeLevel : String → Option String
  rawModeFilters : String → List String
  mkdirOk : String → Bool
  fileInitOk : String → Bool
  fileCloseErr : String → Option String
  fileReloadErr : String → Option String
  syslogCloseErr : String → Option String

/-- Go `strings.TrimSpace`, implemented over the character list so that
it evaluates by kernel reduction. -/
def strTrimSpace (s : String) : String :=
  ⟨((s.data.dropWhile Char.isWhitespace).reverse.dropWhile Char.isWhitespace).reverse⟩

/-- Go `strings.ToLower`, implemented over the character list. -/
def strToLower (s : String) : String :=
  ⟨s.data.map Char.toLower⟩

/-- Worker for `strSplitColon`. -/
def splitColonAux : List Char → List Char → List String
  | [], acc => [⟨acc.reverse⟩]
  | c :: rest, acc =>
    if c = ':' then ⟨acc.reverse⟩ :: splitColonAux rest []
    else splitColonAux rest (c :: acc)

/-- Go `strings.Split(s, ":")`, implemented over the character list. -/
def strSplitColon (s : String) : List String :=
  splitColonAux s.data []

/-- `getLogLevelFromConfig` (`log.go` lines 284-289): the section's
`level` key (or the default), lowercased, resolved through
`getLogLevelFromString`.  Returns the name, the option and the events
logged during resolution. -/
def getLogLevelFromConfig (raw : Option String) (defaultName : String) :
    String × Lvl × List LogEvent :=
  let levelName := strToLower (raw.getD defaultName)
  let r := getLogLevelFromString levelName
  (levelName, r.1, r.2)

/-- Assignment into a Go map modelled as an association list: overwrite
the existing binding or append a new one. -/
def setKV (m : List (String × Lvl)) (k : String) (v : Lvl) : List (String × Lvl) :=
  if (m.lookup k).isSome then m.map (fun p => if p.1 = k then (k, v) else p)
  else m ++ [(k, v)]

/-- `getFilters` (`log.go` lines 303-314): each `"name:level"` string
with at least one colon contributes a binding; level resolution may log
an unknown-level event. -/
def getFilters (filterStrArray : List String) : List (String × Lvl) × List LogEvent :=
  filterStrArray.foldl
    (fun acc filterStr =>
      let parts := strSplitColon filterStr
      if parts.length > 1 then
        let r := getLogLevelFromString (parts.getD 1 "")
        (setKV acc.1 (parts.getD 0 "") r.1, acc.2 ++ r.2)
      else acc)
    ([], [])

/-- State threaded through `ReadLoggingConfig`: the global lifecycle
lists, the registry, the events logged through the root logger so far,
and the `configLoggers` list under construction. -/
structure RLCState where
  g : GlobalLogState
  lm : logManager
  events : List LogEvent
  configLoggers : List LogWithFilters

/-- Outcome of `ReadLoggingConfig` (or of one of its loop steps):
normal continuation, an error return, or the panic on an uninitialized
handler. -/
inductive RLCRes where
  | ok (st : RLCState)
  | err (events : List LogEvent) (msg : String)
  | panicked (msg : String)

/-- The filter-merge and append tail of the mode loop (`log.go` lines
447-456): global default filters are merged under the mode's own
filters (mode wins), then the descriptor is appended. -/
def finishMode (st : RLCState) (ev : List LogEvent) (val : GLogger) (g : GlobalLogState)
    (modeFilters defaultFilters : List (String × Lvl)) (leveloption : Lvl) : RLCRes :=
  let merged := defaultFilters.foldl
    (fun mf kv => if (mf.lookup kv.1).isSome then mf else setKV mf kv.1 kv.2)
    modeFilters
  RLCRes.ok { st with
    g := g,
    events := ev,
    configLoggers :=
      st.configLoggers ++ [{ val := val, filters := merged, maxLevel := leveloption }] }

/-- One iteration of the mode loop of `ReadLoggingConfig` (`log.go`
lines 396-457).  `idx` identifies the mode's freshly constructed writer
(the opaque sink).  A missing section is an error return; a file-mode
directory or handler-initialization failure logs an event and skips the
sink (`continue`); an unrecognized mode with an existing section reaches
the nil-handler panic. -/
def processMode (cfg : LogCfg) (defaultLevelName : String)
    (defaultFilters : List (String × Lvl)) (st : RLCState) (idx : Nat) (mode0 : String) :
    RLCRes :=
  let mode := strTrimSpace mode0
  if cfg.hasSection mode = false then
    RLCRes.err (st.events ++ [LogEvent.unknownMode mode])
      ("failed to get config section log." ++ mode)
  else
    let lv := getLogLevelFromConfig (cfg.rawModeLevel mode) defaultLevelName
    let leveloption := lv.2.1
    let fz := getFilters (cfg.rawModeFilters mode)
    let modeFilters := fz.1
    let ev := st.events ++ lv.2.2 ++ fz.2
    if mode = "console" then
      finishMode st ev (GLogger.sink idx) st.g modeFilters defaultFilters leveloption
    else if mode = "file" then
      if cfg.mkdirOk mode = false then
        RLCRes.ok { st with events := ev ++ [LogEvent.mkdirFailed mode] }
      else if cfg.fileInitOk mode = false then
        RLCRes.ok { st with events := ev ++ [LogEvent.initFailed mode] }
      else
        let g2 := { st.g with
          loggersToClose := st.g.loggersToClose ++ [⟨idx, cfg.fileCloseErr mode⟩],
          loggersToReload := st.g.loggersToReload ++ [⟨idx, cfg.fileReloadErr mode⟩] }
        finishMode st ev (GLogger.sink idx) g2 modeFilters defaultFilters leveloption
    else if mode = "syslog" then
      let g2 := { st.g with
        loggersToClose := st.g.loggersToClose ++ [⟨idx, cfg.syslogCloseErr mode⟩] }
      finishMode st ev (GLogger.sink idx) g2 modeFilters defaultFilters leveloption
    else
      RLCRes.panicked ("Handler is uninitialized for mode " ++ mode)

/-- The mode loop of `ReadLoggingConfig`: left to right over the
enumerated modes, stopping at the first error or panic. -/
def rlcLoop (cfg : LogCfg) (defaultLevelName : String)
    (defaultFilters : List (String × Lvl)) :
    List (Nat × String) → RLCState → RLCRes
  | [], st => RLCRes.ok st
  | im :: rest, st =>
    match processMode cfg defaultLevelName defaultFilters st im.1 im.2 with
    | RLCRes.ok st2 => rlcLoop cfg defaultLevelName defaultFilters rest st2
    | r => r

/-- `ReadLoggingConfig` (`log.go` lines 387-464): closes the previous
closable handlers (returning that error, if any), parses the global
defaults, runs the mode loop, and finally applies the configuration to
the registry when at least one descriptor was built. -/
def ReadLoggingConfig (modes : List String) (cfg : LogCfg) (g : GlobalLogState)
    (lm : logManager) : RLCRes :=
  let c := Close g.loggersToClose
  match c.err with
  | some e => RLCRes.err [] e
  | none =>
    let g1 := { g with loggersToClose := c.remaining }
    let dl := getLogLevelFromConfig cfg.rawDefaultLevel "info"
    let df := getFilters cfg.rawDefaultFilters
    let st0 : RLCState := { g := g1, lm := lm, events := dl.2.2 ++ df.2, configLoggers := [] }
    match rlcLoop cfg dl.1 df.1 modes.enum st0 with
    | RLCRes.ok st =>
      if st.configLoggers.isEmpty then RLCRes.ok st
      else RLCRes.ok { st with lm := st.lm.reconfigure st.configLoggers }
    | r => r

/-- The first non-nil close error on a list of closable handlers, used
to state what `Close` returns. -/
def firstCloseErr : List DisposableHandler → Option String
  | [] => none
  | h :: t =>
    match h.closeErr with
    | some e => some e
    | none => firstCloseErr t

/-- Concrete registry used as a witness input: a root logger plus one
named logger "db" registered at heap index 1. -/
def exampleM : logManager :=
  { heap :=
      [{ ctx := [], logger := GLogger.sink 0 },
       { ctx := [Arg.str "logger", Arg.str "db"],
         logger := GLogger.withCtx (GLogger.sink 0) [Arg.str "logger", Arg.str "db"] }],
    rootCL := 0,
    loggersByName := [("db", 1)],
    logFilters := [] }

/-- Concrete sink descriptors used as witness inputs. -/
def exampleL1 : List LogWithFilters :=
  [{ val := GLogger.sink 5, filters := [("db", Lvl.debug)], maxLevel := Lvl.info }]

/-- A second, different concrete sink descriptor list. -/
def exampleL2 : List LogWithFilters :=
  [{ val := GLogger.sink 6, filters := [], maxLevel := Lvl.warn },
   { val := GLogger.sink 7, filters := [("db", Lvl.error)], maxLevel := Lvl.debug }]

/-- Concrete configured registry (no named loggers yet) used as a
witness input for the named-singleton claim. -/
def exampleS : logManager :=
  { heap := [{ ctx := [], logger := GLogger.sink 0 }],
    rootCL := 0,
    loggersByName := [],
    logFilters := exampleL1 }

/-- Registry state after requesting the named logger "db" from a fresh
default manager (used by the derive-identity counterexample). -/
def exampleM1 : logManager :=
  (logManager.New (newManager (GLogger.sink 0)) [Arg.str "db"]).1

/-- Concrete configuration with no `log.<mode>` sections at all. -/
def exampleCfgNone : LogCfg :=
  { rawDefaultLevel := none,
    rawDefaultFilters := [],
    hasSection := fun _ => false,
    rawModeLevel := fun _ => none,
    rawModeFilters := fun _ => [],
    mkdirOk := fun _ => true,
    fileInitOk := fun _ => true,
    fileCloseErr := fun _ => none,
    fileReloadErr := fun _ => none,
    syslogCloseErr := fun _ => none }

/-- Concrete configuration whose file sink cannot create its directory. -/
def exampleCfgFileFail : LogCfg :=
  { rawDefaultLevel := none,
    rawDefaultFilters := [],
    hasSection := fun m => m == "file" || m == "console",
    rawModeLevel := fun _ => none,
    rawModeFilters := fun _ => [],
    mkdirOk := fun _ => false,
    fileInitOk := fun _ => true,
    fileCloseErr := fun _ => none,
    fileReloadErr := fun _ => none,
    syslogCloseErr := fun _ => none }

/-- Concrete loop state used as a witness input. -/
def exampleRLCSt : RLCState :=
  { g := { loggersToClose := [], loggersToReload := [] },
    lm := exampleM,
    events := [],
    configLoggers := [] }

theorem hGet_hSet_self (s : logManager) (i : Nat) (cl : ConcreteLogger)
    (h : i < s.heap.length) : hGet (hSet s i cl) i = cl := by
  simp [hGet, hSet, List.getD_eq_getElem?_getD, List.getElem?_set_self h]

theorem hGet_hSet_ne (s : logManager) (i j : Nat) (cl : ConcreteLogger)
    (h : i ≠ j) : hGet (hSet s i cl) j = hGet s j := by
  simp [hGet, hSet, List.getD_eq_getElem?_getD, List.getElem?_set_ne h]

theorem updFold_cons (F : String → ConcreteLogger → ConcreteLogger)
    (p : String × Nat) (t : List (String × Nat)) (s : logManager) :
    updFold F (p :: t) s = updFold F t (hSet s p.2 (F p.1 (hGet s p.2))) := rfl

theorem updFold_loggersByName (F : String → ConcreteLogger → ConcreteLogger) :
    ∀ (entries : List (String × Nat)) (s : logManager),
      (updFold F entries s).loggersByName = s.loggersByName
  | [], _ => rfl
  | p :: t, s => by
    rw [updFold_cons, updFold_loggersByName F t]
    rfl

theorem updFold_rootCL (F : String → ConcreteLogger → ConcreteLogger) :
    ∀ (entries : List (String × Nat)) (s : logManager),
      (updFold F entries s).rootCL = s.rootCL
  | [], _ => rfl
  | p :: t, s => by
    rw [updFold_cons, updFold_rootCL F t]
    rfl

theorem updFold_logFilters (F : String → ConcreteLogger → ConcreteLogger) :
    ∀ (entries : List (String × Nat)) (s : logManager),
      (updFold F entries s).logFilters = s.logFilters
  | [], _ => rfl
  | p :: t, s => by
    rw [updFold_cons, updFold_logFilters F t]
    rfl

theorem updFold_heap_length (F : String → ConcreteLogger → ConcreteLogger) :
    ∀ (entries : List (String × Nat)) (s : logManager),
      (updFold F entries s).heap.length = s.heap.length
  | [], _ => rfl
  | p :: t, s => by
    rw [updFold_cons, updFold_heap_length F t]
    simp [hSet]

theorem updFold_hGet_not_mem (F : String → ConcreteLogger → ConcreteLogger) :
    ∀ (entries : List (String × Nat)) (s : logManager) (i : Nat),
      i ∉ entries.map Prod.snd → hGet (updFold F entries s) i = hGet s i
  | [], _, _, _ => rfl
  | p :: t, s, i, h => by
    simp only [List.map_cons, List.mem_cons, not_or] at h
    rw [updFold_cons, updFold_hGet_not_mem F t _ i h.2]
    exact hGet_hSet_ne s p.2 i _ (fun he => h.1 he.symm)

theorem updFold_hGet_mem (F : String → ConcreteLogger → ConcreteLogger) :
    ∀ (entries : List (String × Nat)) (s : logManager) (name : String) (i : Nat),
      (entries.map Prod.snd).Nodup → i < s.heap.length → (name, i) ∈ entries →
      hGet (updFold F entries s) i = F name (hGet s i)
  | [], _, _, _, _, _, hmem => absurd hmem (List.not_mem_nil _)
  | p :: t, s, name, i, hnd, hlt, hmem => by
    simp only [List.map_cons, List.nodup_cons] at hnd
    rcases List.mem_cons.mp hmem with heq | htail
    · have hp2 : p.2 = i := by rw [← heq]
      have hp1 : p.1 = name := by rw [← heq]
      subst hp2
      subst hp1
      have hni : p.2 ∉ t.map Prod.snd := hnd.1
      rw [updFold_cons, updFold_hGet_not_mem F t _ p.2 hni,
        hGet_hSet_self s p.2 _ hlt]
    · have hi : i ∈ t.map Prod.snd := List.mem_map_of_mem Prod.snd htail
      have hne : p.2 ≠ i := fun he => hnd.1 (he ▸ hi)
      have hlt2 : i < (hSet s p.2 (F p.1 (hGet s p.2))).heap.length := by
        simpa [hSet] using hlt
      rw [updFold_cons, updFold_hGet_mem F t _ name i hnd.2 hlt2 htail,
        hGet_hSet_ne s p.2 i _ hne]

theorem reconfRoot_loggersByName (s : logManager) (L : List LogWithFilters) :
    (reconfRoot s L).loggersByName = s.loggersByName := rfl

theorem reconfRoot_rootCL (s : logManager) (L : List LogWithFilters) :
    (reconfRoot s L).rootCL = s.rootCL := rfl

theorem reconfRoot_logFilters (s : logManager) (L : List LogWithFilters) :
    (reconfRoot s L).logFilters = L := rfl

theorem reconfRoot_heap_length (s : logManager) (L : List LogWithFilters) :
    (reconfRoot s L).heap.length = s.heap.length := by
  simp [reconfRoot, hSet]

theorem reconfRoot_hGet_ne (s : logManager) (L : List LogWithFilters) (id : Nat)
    (h : s.rootCL ≠ id) : hGet (reconfRoot s L) id = hGet s id :=
  hGet_hSet_ne s s.rootCL id _ h

theorem reconfigure_loggersByName (s : logManager) (L : List LogWithFilters) :
    (s.reconfigure L).loggersByName = s.loggersByName := by
  simp only [logManager.reconfigure]
  rw [updFold_loggersByName]
  rfl

theorem reconfigure_rootCL (s : logManager) (L : List LogWithFilters) :
    (s.reconfigure L).rootCL = s.rootCL := by
  simp only [logManager.reconfigure]
  rw [updFold_rootCL]
  rfl

theorem reconfigure_logFilters (s : logManager) (L : List LogWithFilters) :
    (s.reconfigure L).logFilters = L := by
  simp only [logManager.reconfigure]
  rw [updFold_logFilters]
  rfl

theorem reconfigure_heap_length (s : logManager) (L : List LogWithFilters) :
    (s.reconfigure L).heap.length = s.heap.length := by
  simp only [logManager.reconfigure]
  rw [updFold_heap_length, reconfRoot_heap_length]

theorem reconfigure_hGet (s : logManager) (L : List LogWithFilters)
    (hwf : s.WF) (name : String) (id : Nat) (hmem : (name, id) ∈ s.loggersByName) :
    hGet (s.reconfigure L) id =
      ConcreteLogger.SetLogger (hGet s id) (GLogger.composite (initCtxLoggers L name)) := by
  obtain ⟨hroot, hlt, hnd, hnr, hfnd⟩ := hwf
  have hne : s.rootCL ≠ id := fun he => hnr (name, id) hmem he.symm
  have hid : id < s.heap.length := hlt (name, id) hmem
  simp only [logManager.reconfigure]
  rw [reconfRoot_loggersByName,
    updFold_hGet_mem _ _ _ name id hnd (by rw [reconfRoot_heap_length]; exact hid) hmem,
    reconfRoot_hGet_ne s L id hne]

theorem reconfigure_WF (s : logManager) (L : List LogWithFilters) (hwf : s.WF) :
    (s.reconfigure L).WF := by
  obtain ⟨hroot, hlt, hnd, hnr, hfnd⟩ := hwf
  refine ⟨?_, ?_, ?_, ?_, ?_⟩
  · rw [reconfigure_heap_length, reconfigure_rootCL]
    exact hroot
  · intro p hp
    rw [reconfigure_heap_length]
    exact hlt p (by rwa [reconfigure_loggersByName] at hp)
  · rw [reconfigure_loggersByName]
    exact hnd
  · intro p hp
    rw [reconfigure_rootCL]
    exact hnr p (by rwa [reconfigure_loggersByName] at hp)
  · rw [reconfigure_loggersByName]
    exact hfnd

theorem lookup_append_self (l : List (String × Nat)) (name : String) (id : Nat)
    (h : l.lookup name = none) : (l ++ [(name, id)]).lookup name = some id := by
  rw [List.lookup_append, h]
  simp [List.lookup]

theorem foldl_concat_eq_map {α β : Type} (g : α → β)
    (step : List β → α → List β) (hstep : ∀ a x, step a x = a ++ [g x]) :
    ∀ (l : List α) (acc : List β), l.foldl step acc = acc ++ l.map g
  | [], acc => by simp
  | x :: t, acc => by
    rw [List.foldl_cons, hstep, foldl_concat_eq_map g step hstep t]
    simp

theorem close_foldl_eq :
    ∀ (hs : List DisposableHandler) (e0 : Option String) (a0 : List DisposableHandler),
      hs.foldl
        (fun (acc : Option String × List DisposableHandler) logger =>
          ((match logger.closeErr, acc.1 with
            | some e, none => some e
            | _, _ => acc.1),
           acc.2 ++ [logger]))
        (e0, a0) =
      ((match e0 with
        | some e => some e
        | none => firstCloseErr hs),
       a0 ++ hs)
  | [], e0, a0 => by cases e0 <;> simp [firstCloseErr]
  | h :: t, e0, a0 => by
    rw [List.foldl_cons, close_foldl_eq t]
    cases e0 <;> cases hh : h.closeErr <;> simp [firstCloseErr, hh]

theorem logger_not_in_stripped : ∀ (l : List Arg), Arg.str "logger" ∉ pairKeys (stripLogger l)
  | [] => by simp [stripLogger, pairKeys]
  | [k] => by simp [stripLogger, pairKeys]
  | k :: v :: rest => by
    by_cases hk : k = Arg.str "logger"
    · rw [show stripLogger (k :: v :: rest) = stripLogger rest by simp [stripLogger, hk]]
      exact logger_not_in_stripped rest
    · rw [show stripLogger (k :: v :: rest) = k :: v :: stripLogger rest by
        simp [stripLogger, hk]]
      simp only [pairKeys, List.mem_cons, not_or]
      exact ⟨fun h => hk h.symm, logger_not_in_stripped rest⟩

theorem lookup_none_of_not_mem_keys {β : Type} :
    ∀ (l : List (String × β)) (a : String), a ∉ l.map Prod.fst → l.lookup a = none
  | [], _, _ => rfl
  | p :: t, a, h => by
    simp only [List.map_cons, List.mem_cons, not_or] at h
    simp only [List.lookup]
    rw [show (a == p.1) = false from beq_eq_false_iff_ne.mpr h.1]
    exact lookup_none_of_not_mem_keys t a h.2

theorem reload_stops_at_failure (h : ReloadableHandler) (post : List ReloadableHandler) (e : String)
    (he : h.reloadErr = some e) :
    ∀ (pre : List ReloadableHandler), (∀ x ∈ pre, x.reloadErr = none) →
      Reload (pre ++ h :: post) = (some e, pre ++ [h])
  | [], _ => by simp [Reload, he]
  | a :: t, hpre => by
    have ha : a.reloadErr = none := hpre a (by simp)
    have ht := reload_stops_at_failure h post e he t (fun x hx => hpre x (by simp [hx]))
    simp [Reload, ha, ht]

theorem reload_none_iff : ∀ (hs : List ReloadableHandler),
    (Reload hs).1 = none ↔ ∀ x ∈ hs, x.reloadErr = none
  | [] => by simp [Reload]
  | a :: t => by
    cases ha : a.reloadErr with
    | none => simp [Reload, ha, reload_none_iff t]
    | some e => simp [Reload, ha]

/-- Claim C7: `Close()` invokes close on every handler in the closable
list (in order, continuing past failures), returns the first error
encountered (or nil), empties the closable list, and a second call with
no intervening configuration closes nothing and returns no error. -/
theorem C7_close_first_error_idempotent (hs : List DisposableHandler) :
    (Close hs).closed = hs ∧
    (Close hs).err = firstCloseErr hs ∧
    (Close hs).remaining = [] ∧
    Close (Close hs).remaining = { err := none, closed := [], remaining := [] } := by
  have h := close_foldl_eq hs none []
  refine ⟨?_, ?_, rfl, rfl⟩ <;> simp [Close, h]

/-- Claim C8: `Reload()` reloads the registered handlers in order and
returns at the first failing handler without attempting the remaining
ones; it returns nil exactly when every reload succeeds. -/
theorem C8_reload_fail_fast (pre post : List ReloadableHandler) (h : ReloadableHandler)
    (e : String) (hpre : ∀ x ∈ pre, x.reloadErr = none) (he : h.reloadErr = some e) :
    Reload (pre ++ h :: post) = (some e, pre ++ [h]) ∧
    ∀ hs : List ReloadableHandler, ((Reload hs).1 = none ↔ ∀ x ∈ hs, x.reloadErr = none) :=
  ⟨reload_stops_at_failure h post e he pre hpre, reload_none_iff⟩

/-- Witness for C8 at a concrete handler list: the second handler fails
with "stuck"; the third is never attempted. -/
theorem C8_reload_witness :
    Reload [⟨0, none⟩, ⟨1, some "stuck"⟩, ⟨2, some "later"⟩] =
      (some "stuck", [⟨0, none⟩, ⟨1, some "stuck"⟩]) ∧
    ∀ hs : List ReloadableHandler, ((Reload hs).1 = none ↔ ∀ x ∈ hs, x.reloadErr = none) :=
  C8_reload_fail_fast [⟨0, none⟩] [⟨2, some "later"⟩] ⟨1, some "stuck"⟩ "stuck"
    (by decide) rfl

/-- Claim C9: a level name outside the known-name map resolves to the
most restrictive threshold (`AllowError`), logging the failure once
through the root logger; `AllowError` admits exactly the error-level
records. -/
theorem C9_unknown_level_fails_closed (levelName : String)
    (h : levelName ∉ logLevels.map Prod.fst) :
    getLogLevelFromString levelName = (Lvl.error, [LogEvent.unknownLevel levelName]) ∧
    (∀ recLevel : Lvl, allow recLevel Lvl.error = true ↔ recLevel = Lvl.error) := by
  constructor
  · unfold getLogLevelFromString
    rw [lookup_none_of_not_mem_keys logLevels levelName h]
  · intro recLevel
    cases recLevel <;> simp [allow, Lvl.ord]

/-- Witness for C9 at the concrete unknown level name "verbose". -/
theorem C9_unknown_level_witness :
    getLogLevelFromString "verbose" = (Lvl.error, [LogEvent.unknownLevel "verbose"]) ∧
    (∀ recLevel : Lvl, allow recLevel Lvl.error = true ↔ recLevel = Lvl.error) :=
  C9_unknown_level_fails_closed "verbose" (by decide)

/-- Claim C10: "trace" maps to the same filter option as "debug" and
"critical" to the same option as "error", so a "critical" threshold
admits exactly the records an "error" threshold admits, and likewise for
"trace" versus "debug". -/
theorem C10_level_alias_pairs :
    logLevels.lookup "trace" = logLevels.lookup "debug" ∧
    logLevels.lookup "critical" = logLevels.lookup "error" ∧
    getLogLevelFromString "trace" = getLogLevelFromString "debug" ∧
    getLogLevelFromString "critical" = getLogLevelFromString "error" ∧
    (∀ recLevel : Lvl,
      allow recLevel (getLogLevelFromString "critical").1 =
        allow recLevel (getLogLevelFromString "error").1) ∧
    (∀ recLevel : Lvl,
      allow recLevel (getLogLevelFromString "trace").1 =
        allow recLevel (getLogLevelFromString "debug").1) := by
  refine ⟨by decide, by decide, by decide, by decide,
    fun recLevel => ?_, fun recLevel => ?_⟩ <;> cases recLevel <;> rfl

/-- Claim C2: for every sink descriptor and logger name, the threshold
applied to the (sink, name) pair is the descriptor's per-name override
when present and otherwise its default threshold, and the very same rule
is applied by the rebuild loop of the reconfiguration and by the build
of a logger for an unseen name. -/
theorem C2_override_rule_both_paths (loggers : List LogWithFilters) (name : String) :
    initCtxLoggers loggers name =
      loggers.map
        (fun l => GLogger.filter l.val ((l.filters.lookup name).getD l.maxLevel)) ∧
    newCompositeFor loggers name =
      loggers.map
        (fun l => GLogger.filter l.val ((l.filters.lookup name).getD l.maxLevel)) := by
  constructor
  · unfold initCtxLoggers
    apply List.map_congr_left
    intro a _
    cases hx : a.filters.lookup name <;> simp [hx]
  · unfold newCompositeFor
    rw [foldl_concat_eq_map
      (fun l => GLogger.filter l.val ((l.filters.lookup name).getD l.maxLevel)) _
      (by intro a x; cases hx : x.filters.lookup name <;> simp [hx]) loggers []]
    simp

/-- Claim C1: reconfiguration keeps the very same `ConcreteLogger`
object for every already-registered name (the name map and each object's
identity and context survive) and only swaps the object's delegate to
the composite built from the new sink list; after a second
reconfiguration the same object carries the composite of the final sink
list, so a reference held across reconfigurations observes the final
configuration without re-lookup. -/
theorem C1_identity_across_reconfig (s : logManager) (L1 L2 : List LogWithFilters)
    (hwf : s.WF) :
    (s.reconfigure L1).loggersByName = s.loggersByName ∧
    (∀ name id, (name, id) ∈ s.loggersByName →
      hGet (s.reconfigure L1) id =
        { ctx := (hGet s id).ctx,
          logger := gWith (GLogger.composite (initCtxLoggers L1 name)) (hGet s id).ctx } ∧
      hGet ((s.reconfigure L1).reconfigure L2) id =
        { ctx := (hGet s id).ctx,
          logger := gWith (GLogger.composite (initCtxLoggers L2 name)) (hGet s id).ctx }) := by
  refine ⟨reconfigure_loggersByName s L1, fun name id hmem => ⟨?_, ?_⟩⟩
  · rw [reconfigure_hGet s L1 hwf name id hmem]
    rfl
  · have hm2 : (name, id) ∈ (s.reconfigure L1).loggersByName := by
      rw [reconfigure_loggersByName]
      exact hmem
    rw [reconfigure_hGet _ L2 (reconfigure_WF s L1 hwf) name id hm2,
      reconfigure_hGet s L1 hwf name id hmem]
    rfl

/-- Witness for C1 at a concrete registry with the named logger "db",
reconfigured twice with different sink lists. -/
theorem C1_identity_witness :
    (exampleM.reconfigure exampleL1).loggersByName = exampleM.loggersByName ∧
    (∀ name id, (name, id) ∈ exampleM.loggersByName →
      hGet (exampleM.reconfigure exampleL1) id =
        { ctx := (hGet exampleM id).ctx,
          logger := gWith (GLogger.composite (initCtxLoggers exampleL1 name))
            (hGet exampleM id).ctx } ∧
      hGet ((exampleM.reconfigure exampleL1).reconfigure exampleL2) id =
        { ctx := (hGet exampleM id).ctx,
          logger := gWith (GLogger.composite (initCtxLoggers exampleL2 name))
            (hGet exampleM id).ctx }) :=
  C1_identity_across_reconfig exampleM exampleL1 exampleL2 (by unfold logManager.WF; decide)

/-- Claim C4: the first `New(name)` call for an unseen name builds the
filtered logger for that name and caches it in the registry under the
name; a subsequent `New(name)` call returns the cached object (same heap
index) without modifying the registry. -/
theorem C4_name_scoped_singleton (s : logManager) (name : String)
    (hnew : s.loggersByName.lookup name = none) (hf : s.logFilters ≠ []) :
    (s.New [Arg.str name]).2 = s.heap.length ∧
    (s.New [Arg.str name]).1.loggersByName = s.loggersByName ++ [(name, s.heap.length)] ∧
    hGet (s.New [Arg.str name]).1 (s.New [Arg.str name]).2 =
      newConcreteLogger (GLogger.composite (newCompositeFor s.logFilters name))
        [Arg.str "logger", Arg.str name] ∧
    (s.New [Arg.str name]).1.New [Arg.str name] =
      ((s.New [Arg.str name]).1, (s.New [Arg.str name]).2) := by
  have hie : s.logFilters.isEmpty = false := by
    cases hl : s.logFilters
    · exact absurd hl hf
    · rfl
  have h1 : s.New [Arg.str name] =
      ({ s with
          heap := s.heap ++
            [newConcreteLogger (GLogger.composite (newCompositeFor s.logFilters name))
              [Arg.str "logger", Arg.str name]],
          loggersByName := s.loggersByName ++ [(name, s.heap.length)] },
       s.heap.length) := by
    simp [logManager.New, hnew, hie]
  have hl2 : (s.loggersByName ++ [(name, s.heap.length)]).lookup name = some s.heap.length :=
    lookup_append_self s.loggersByName name s.heap.length hnew
  refine ⟨by rw [h1], by rw [h1], ?_, ?_⟩
  · rw [h1]
    simp [hGet, List.getD_eq_getElem?_getD, List.getElem?_concat_length]
  · rw [h1]
    simp [logManager.New, hl2]

/-- Witness for C4 at a concrete configured registry and the unseen name
"db". -/
theorem C4_singleton_witness :
    (exampleS.New [Arg.str "db"]).2 = exampleS.heap.length ∧
    (exampleS.New [Arg.str "db"]).1.loggersByName =
      exampleS.loggersByName ++ [("db", exampleS.heap.length)] ∧
    hGet (exampleS.New [Arg.str "db"]).1 (exampleS.New [Arg.str "db"]).2 =
      newConcreteLogger (GLogger.composite (newCompositeFor exampleS.logFilters "db"))
        [Arg.str "logger", Arg.str "db"] ∧
    (exampleS.New [Arg.str "db"]).1.New [Arg.str "db"] =
      ((exampleS.New [Arg.str "db"]).1, (exampleS.New [Arg.str "db"]).2) :=
  C4_name_scoped_singleton exampleS "db" rfl (List.cons_ne_nil _ _)

/-- Counterexample to C3 as stated: in a fresh default manager, the
named logger "db" lives at heap index 1, yet `ConcreteLogger.New` with
no extra context returns the logger at heap index 0 (the root object),
not the same object. -/
theorem C3_derive_identity_counterexample :
    exampleM1.loggersByName.lookup "db" = some 1 ∧
    (ConcreteLogger.New exampleM1 1 []).2 ≠ 1 := by
  constructor
  · rfl
  · decide

/-- Claim C3 (amended): `ConcreteLogger.New` with no extra context does
not return the receiver; it resolves through the registry using the
receiver's context stripped of "logger" pairs, so a receiver whose
context consists only of "logger" pairs (as for a plain named logger)
gets the root manager's logger back; and the bound "logger" key is never
among the keys propagated into the child's context. -/
theorem C3_derive_no_ctx_root (s : logManager) (id : Nat)
    (h : stripLogger (padEven (hGet s id).ctx) = []) :
    (ConcreteLogger.New s id []).2 = s.rootCL ∧
    (∀ ctx : List Arg, Arg.str "logger" ∉ pairKeys (stripLogger ctx)) := by
  refine ⟨?_, logger_not_in_stripped⟩
  show (logManager.New _ (stripLogger (padEven (hGet s id).ctx) ++ [])).2 = s.rootCL
  rw [h]
  rfl

/-- Witness for C3 (amended) at the concrete named logger "db". -/
theorem C3_derive_witness :
    (ConcreteLogger.New exampleM1 1 []).2 = exampleM1.rootCL ∧
    (∀ ctx : List Arg, Arg.str "logger" ∉ pairKeys (stripLogger ctx)) :=
  C3_derive_no_ctx_root exampleM1 1 (by decide)

/-- Claim C5: when the file sink's handler construction fails (the
directory cannot be created, or the file handler cannot be initialized),
the failure is logged, only that sink is skipped (the descriptor list,
lifecycle lists and registry are untouched), and the loop proceeds with
the remaining modes instead of failing the whole configuration
application. -/
theorem C5_sink_failure_nonfatal (cfg : LogCfg) (st : RLCState)
    (defaultLevelName : String) (defaultFilters : List (String × Lvl))
    (idx : Nat) (mode0 : String) (rest : List (Nat × String))
    (hmode : strTrimSpace mode0 = "file") (hsec : cfg.hasSection "file" = true)
    (hfail : cfg.mkdirOk "file" = false ∨ cfg.fileInitOk "file" = false) :
    ∃ evs failEv,
      (failEv = LogEvent.mkdirFailed "file" ∨ failEv = LogEvent.initFailed "file") ∧
      processMode cfg defaultLevelName defaultFilters st idx mode0 =
        RLCRes.ok { st with events := st.events ++ (evs ++ [failEv]) } ∧
      rlcLoop cfg defaultLevelName defaultFilters ((idx, mode0) :: rest) st =
        rlcLoop cfg defaultLevelName defaultFilters rest
          { st with events := st.events ++ (evs ++ [failEv]) } := by
  cases hmk : cfg.mkdirOk "file" with
  | false =>
    have hp : processMode cfg defaultLevelName defaultFilters st idx mode0 =
        RLCRes.ok { st with events := st.events ++
          (((getLogLevelFromConfig (cfg.rawModeLevel "file") defaultLevelName).2.2 ++
            (getFilters (cfg.rawModeFilters "file")).2) ++
           [LogEvent.mkdirFailed "file"]) } := by
      simp [processMode, hmode, hsec, hmk, List.append_assoc]
    exact ⟨_, _, Or.inl rfl, hp, by simp [rlcLoop, hp]⟩
  | true =>
    have hinit : cfg.fileInitOk "file" = false := hfail.resolve_left (by simp [hmk])
    have hp : processMode cfg defaultLevelName defaultFilters st idx mode0 =
        RLCRes.ok { st with events := st.events ++
          (((getLogLevelFromConfig (cfg.rawModeLevel "file") defaultLevelName).2.2 ++
            (getFilters (cfg.rawModeFilters "file")).2) ++
           [LogEvent.initFailed "file"]) } := by
      simp [processMode, hmode, hsec, hmk, hinit, List.append_assoc]
    exact ⟨_, _, Or.inr rfl, hp, by simp [rlcLoop, hp]⟩

/-- Witness for C5 at a concrete configuration whose file sink cannot
create its directory, with one more mode left in the loop. -/
theorem C5_sink_failure_witness :
    ∃ evs failEv,
      (failEv = LogEvent.mkdirFailed "file" ∨ failEv = LogEvent.initFailed "file") ∧
      processMode exampleCfgFileFail "info" [] exampleRLCSt 0 "file" =
        RLCRes.ok { exampleRLCSt with
          events := exampleRLCSt.events ++ (evs ++ [failEv]) } ∧
      rlcLoop exampleCfgFileFail "info" [] ((0, "file") :: [(1, "console")]) exampleRLCSt =
        rlcLoop exampleCfgFileFail "info" [] [(1, "console")]
          { exampleRLCSt with events := exampleRLCSt.events ++ (evs ++ [failEv]) } :=
  C5_sink_failure_nonfatal exampleCfgFileFail exampleRLCSt "info" [] 0 "file"
    [(1, "console")] (by decide) rfl (Or.inl rfl)

/-- Claim C6: an enabled mode whose configuration section is missing is
logged through the root logger and aborts configuration application with
a non-nil error; the remaining modes are not processed and
`ReadLoggingConfig` itself returns the error. -/
theorem C6_unknown_mode_aborts (cfg : LogCfg) (st : RLCState)
    (defaultLevelName : String) (defaultFilters : List (String × Lvl))
    (idx : Nat) (mode0 : String) (rest : List (Nat × String))
    (hsec : cfg.hasSection (strTrimSpace mode0) = false) :
    rlcLoop cfg defaultLevelName defaultFilters ((idx, mode0) :: rest) st =
      RLCRes.err (st.events ++ [LogEvent.unknownMode (strTrimSpace mode0)])
        ("failed to get config section log." ++ strTrimSpace mode0) ∧
    (∀ st2, rlcLoop cfg defaultLevelName defaultFilters ((idx, mode0) :: rest) st ≠
      RLCRes.ok st2) ∧
    (∀ (g : GlobalLogState) (lm : logManager) (restModes : List String),
      (Close g.loggersToClose).err = none →
      ReadLoggingConfig (mode0 :: restModes) cfg g lm =
        RLCRes.err
          ((getLogLevelFromConfig cfg.rawDefaultLevel "info").2.2 ++
            (getFilters cfg.rawDefaultFilters).2 ++
            [LogEvent.unknownMode (strTrimSpace mode0)])
          ("failed to get config section log." ++ strTrimSpace mode0)) := by
  have hp : ∀ (dln : String) (dfs : List (String × Lvl)) (st1 : RLCState) (idx1 : Nat),
      processMode cfg dln dfs st1 idx1 mode0 =
        RLCRes.err (st1.events ++ [LogEvent.unknownMode (strTrimSpace mode0)])
          ("failed to get config section log." ++ strTrimSpace mode0) := by
    intro dln dfs st1 idx1
    simp [processMode, hsec]
  refine ⟨by simp [rlcLoop, hp], fun st2 => by simp [rlcLoop, hp], ?_⟩
  intro g lm restModes hce
  simp [ReadLoggingConfig, hce, List.enum_cons, rlcLoop, hp]

/-- Witness for C6 at a concrete configuration with no sections and the
requested mode "weird". -/
theorem C6_unknown_mode_witness :
    rlcLoop exampleCfgNone "info" [] ((0, "weird") :: [(1, "console")]) exampleRLCSt =
      RLCRes.err (exampleRLCSt.events ++ [LogEvent.unknownMode (strTrimSpace "weird")])
        ("failed to get config section log." ++ strTrimSpace "weird") ∧
    (∀ st2, rlcLoop exampleCfgNone "info" [] ((0, "weird") :: [(1, "console")]) exampleRLCSt ≠
      RLCRes.ok st2) ∧
    (∀ (g : GlobalLogState) (lm : logManager) (restModes : List String),
      (Close g.loggersToClose).err = none →
      ReadLoggingConfig ("weird" :: restModes) exampleCfgNone g lm =
        RLCRes.err
          ((getLogLevelFromConfig exampleCfgNone.rawDefaultLevel "info").2.2 ++
            (getFilters exampleCfgNone.rawDefaultFilters).2 ++
            [LogEvent.unknownMode (strTrimSpace "weird")])
          ("failed to get config section log." ++ strTrimSpace "weird")) :=
  C6_unknown_mode_aborts exampleCfgNone exampleRLCSt "info" [] 0 "weird" [(1, "console")] rfl
